import Mathlib

/-!
Verification of the MindMark (Bookmart) learning-analytics and
spaced-repetition core against its natural-language specification.

The definitions below are a shallow embedding of the JavaScript backend:

* `checkAnswer` embeds the answer evaluator of `routes/quiz.js`;
* `calculateNextReviewDate`, `getDueBookmarks`, `getWeakestBookmarks` and
  `createDailyReviewSet` embed `services/revisionEngine.js`;
* `submitQuiz` embeds the `POST /submit` handler of `routes/quiz.js`;
* `getPerformanceTrend` and `categoryRetentionTrend` embed the analytics
  service (`getPerformanceTrend`, `getCategoryAnalytics`);
* `generateInsights` embeds `services/insightEngine.js`.

Modelling conventions:

* JavaScript numbers are modelled by `ℚ` (scores are exact rationals
  `100·c/n`; for the magnitudes occurring here double rounding never
  changes any of the comparisons performed by the code).
* A JavaScript `Date` is modelled by `JsDate`: a local calendar-day index
  plus hour/minute/second/millisecond fields.  `Date` comparison is
  comparison of `JsDate.toMs`.
* Database queries (Prisma over PostgreSQL 15, which the repository's
  README pins) are modelled by `List.filter` / stable `List.insertionSort`
  / `List.take` over the lists of a `Store` snapshot.  PostgreSQL sorts
  `NULL` values last under `ORDER BY … ASC`, which the embedding of
  `orderBy: { nextReviewAt: 'asc' }` reflects.
-/

/-- Question types of the data model (`mcq`, `short`, `scenario`, `flashcard`). -/
inductive QType where
  | mcq
  | short
  | scenario
  | flashcard
deriving DecidableEq, Repr

/-- JavaScript `toLowerCase`, character by character. -/
def jsToLower (s : String) : String := String.mk (s.data.map Char.toLower)

/-- JavaScript `trim`: strip leading and trailing whitespace. -/
def jsTrim (s : String) : String :=
  String.mk (((s.data.dropWhile Char.isWhitespace).reverse.dropWhile Char.isWhitespace).reverse)

/-- Split a character list at every whitespace character, keeping empty pieces. -/
def splitChars : List Char → List (List Char)
  | [] => [[]]
  | c :: rest =>
    let r := splitChars rest
    if c.isWhitespace then [] :: r
    else
      match r with
      | [] => [[c]]
      | t :: ts => (c :: t) :: ts

/-- JavaScript `s.split(/\s+/)` for a trimmed string `s`: splitting on runs of
whitespace, except that the empty string yields `[""]` (one empty token). -/
def jsSplitWs (s : String) : List String :=
  if s = "" then [""]
  else ((splitChars s.data).filter (fun w => w ≠ [])).map String.mk

/-- Structural substring test: does `needle` occur contiguously in `hay`? -/
def infixCheck (needle : List Char) : List Char → Bool
  | [] => needle.isEmpty
  | c :: rest => needle.isPrefixOf (c :: rest) || infixCheck needle rest

/-- JavaScript `hay.includes(needle)`. -/
def jsIncludes (hay needle : String) : Bool :=
  infixCheck needle.data hay.data

/-- A generated quiz question (id, owning bookmark, type, texts). -/
structure Question where
  id : Nat
  bookmarkId : Nat
  qtype : QType
  questionText : String
  correctAnswer : String
  explanation : Option String := none
deriving DecidableEq, Repr

/-- Key terms of a correct answer: whitespace tokens of the lower-cased,
trimmed text that are strictly longer than 3 characters. -/
def keyTerms (correctAnswer : String) : List String :=
  (jsSplitWs (jsTrim (jsToLower correctAnswer))).filter (fun w => w.length > 3)

/-- Whitespace tokens of the lower-cased, trimmed submitted answer. -/
def submittedTokens (selectedAnswer : String) : List String :=
  jsSplitWs (jsTrim (jsToLower selectedAnswer))

/-- A key term `w` counts as matched when it is a substring of some submitted
token or that token is a substring of it (bidirectional containment). -/
def termMatched (selectedAnswer : String) (w : String) : Bool :=
  (submittedTokens selectedAnswer).any (fun sw => jsIncludes sw w || jsIncludes w sw)

/-- The answer evaluator `checkAnswer(question, selectedAnswer)` of
`routes/quiz.js`.  For `short`/`scenario` the source computes
`matchCount / correctWords.length >= 0.5` with IEEE division: when
`correctWords.length` is `0` the quotient is `NaN` and the comparison is
`false`, which the guard `correctWords.length ≠ 0` encodes; for a nonzero
length the exact rational comparison agrees with the double comparison at
these magnitudes. -/
def checkAnswer (q : Question) (selectedAnswer : String) : Bool :=
  let correct := jsTrim (jsToLower q.correctAnswer)
  let selected := jsTrim (jsToLower selectedAnswer)
  match q.qtype with
  | QType.mcq => correct == selected
  | QType.short | QType.scenario =>
    let correctWords := (jsSplitWs correct).filter (fun w => w.length > 3)
    let selectedWords := jsSplitWs selected
    let matchCount :=
      (correctWords.filter (fun w =>
        selectedWords.any (fun sw => jsIncludes sw w || jsIncludes w sw))).length
    decide (correctWords.length ≠ 0) &&
      decide (((matchCount : ℚ) / (correctWords.length : ℚ)) ≥ 1/2)
  | QType.flashcard =>
    jsIncludes correct selected || jsIncludes selected correct || correct == selected

theorem infixCheck_iff (needle hay : List Char) :
    infixCheck needle hay = true ↔ needle <:+: hay := by
  induction hay with
  | nil =>
    simp [infixCheck, List.isEmpty_iff, List.infix_nil]
  | cons c rest ih =>
    simp [infixCheck, ih, List.infix_cons_iff]

theorem jsIncludes_iff (hay needle : String) :
    jsIncludes hay needle = true ↔ needle.data <:+: hay.data :=
  infixCheck_iff _ _

theorem termMatched_iff (s w : String) :
    termMatched s w = true ↔
      ∃ sw ∈ submittedTokens s, w.data <:+: sw.data ∨ sw.data <:+: w.data := by
  simp [termMatched, jsIncludes_iff]

/-- Sample short-answer question used by concrete witnesses. -/
def exQ1 : Question :=
  { id := 1, bookmarkId := 1, qtype := QType.short,
    questionText := "What do mitochondria do?",
    correctAnswer := "Mitochondria produce cellular energy" }

/-- Sample flashcard question used by concrete witnesses. -/
def exQ10 : Question :=
  { id := 2, bookmarkId := 1, qtype := QType.flashcard,
    questionText := "Capital of France?", correctAnswer := "Paris" }

/-- C1: for every question of type `short` or `scenario` and every submitted
answer, the evaluator returns `true` iff at least half of the key terms (the
whitespace tokens of the lower-cased, trimmed correct answer strictly longer
than 3 characters) are matched, a key term counting as matched when it is a
substring of some submitted token or that token is a substring of it; a
correct answer with zero key terms is always judged a match failure. -/
theorem checkAnswer_short_scenario_keyterm_rule (q : Question) (s : String)
    (h : q.qtype = QType.short ∨ q.qtype = QType.scenario) :
    (checkAnswer q s = true ↔
      (keyTerms q.correctAnswer ≠ [] ∧
        (((keyTerms q.correctAnswer).filter (termMatched s)).length : ℚ) ≥
          ((keyTerms q.correctAnswer).length : ℚ) / 2)) ∧
    (keyTerms q.correctAnswer = [] → checkAnswer q s = false) ∧
    (∀ w, termMatched s w = true ↔
      ∃ sw ∈ submittedTokens s, w.data <:+: sw.data ∨ sw.data <:+: w.data) := by
  have hck : checkAnswer q s =
      (decide ((keyTerms q.correctAnswer).length ≠ 0) &&
        decide ((((keyTerms q.correctAnswer).filter (termMatched s)).length : ℚ) /
            ((keyTerms q.correctAnswer).length : ℚ) ≥ 1/2)) := by
    rcases h with h | h <;> simp only [checkAnswer, h] <;> rfl
  refine ⟨?_, ?_, fun w => termMatched_iff s w⟩
  · rw [hck]
    simp only [Bool.and_eq_true, decide_eq_true_eq]
    constructor
    · rintro ⟨h1, h2⟩
      have hn : (0 : ℚ) < ((keyTerms q.correctAnswer).length : ℚ) := by
        exact_mod_cast Nat.pos_of_ne_zero h1
      refine ⟨fun hnil => h1 (by simp [hnil]), ?_⟩
      rw [ge_iff_le, div_le_div_iff₀ (by norm_num) hn] at h2
      rw [ge_iff_le, div_le_iff₀ (by norm_num : (0:ℚ) < 2)]
      linarith
    · rintro ⟨h1, h2⟩
      have h1' : (keyTerms q.correctAnswer).length ≠ 0 := by
        simpa [List.length_eq_zero] using h1
      have hn : (0 : ℚ) < ((keyTerms q.correctAnswer).length : ℚ) := by
        exact_mod_cast Nat.pos_of_ne_zero h1'
      refine ⟨h1', ?_⟩
      rw [ge_iff_le, div_le_iff₀ (by norm_num : (0:ℚ) < 2)] at h2
      rw [ge_iff_le, div_le_div_iff₀ (by norm_num) hn]
      linarith
  · intro h0
    rw [hck, h0]
    simp

/-- Witness for C1 at a concrete short-answer question and submission. -/
theorem checkAnswer_short_scenario_keyterm_rule_witness :
    (exQ1.qtype = QType.short ∨ exQ1.qtype = QType.scenario) ∧
    ((checkAnswer exQ1 "energy from mitochondria" = true ↔
      (keyTerms exQ1.correctAnswer ≠ [] ∧
        (((keyTerms exQ1.correctAnswer).filter
            (termMatched "energy from mitochondria")).length : ℚ) ≥
          ((keyTerms exQ1.correctAnswer).length : ℚ) / 2)) ∧
    (keyTerms exQ1.correctAnswer = [] →
      checkAnswer exQ1 "energy from mitochondria" = false) ∧
    (∀ w, termMatched "energy from mitochondria" w = true ↔
      ∃ sw ∈ submittedTokens "energy from mitochondria",
        w.data <:+: sw.data ∨ sw.data <:+: w.data)) :=
  ⟨Or.inl rfl,
    checkAnswer_short_scenario_keyterm_rule exQ1 "energy from mitochondria" (Or.inl rfl)⟩

/-- C10: for every flashcard question, a submission whose trimmed lower-cased
form is the empty string is judged correct, because the empty string is a
substring of every correct answer under the lenient containment rule. -/
theorem checkAnswer_flashcard_empty_submission (q : Question) (s : String)
    (hq : q.qtype = QType.flashcard) (hs : jsTrim (jsToLower s) = "") :
    checkAnswer q s = true := by
  simp only [checkAnswer, hq, hs]
  have h1 : jsIncludes (jsTrim (jsToLower q.correctAnswer)) "" = true :=
    (jsIncludes_iff _ _).mpr (by simp)
  simp [h1]

/-- Witness for C10: a whitespace-only submission on a concrete flashcard. -/
theorem checkAnswer_flashcard_empty_submission_witness :
    (exQ10.qtype = QType.flashcard ∧ jsTrim (jsToLower "   ") = "") ∧
      checkAnswer exQ10 "   " = true :=
  ⟨⟨rfl, by decide⟩, checkAnswer_flashcard_empty_submission exQ10 "   " rfl (by decide)⟩

/-- A JavaScript `Date` in the reference (local) time zone: a calendar-day
index plus the time-of-day fields that `setHours` manipulates.  Comparison of
two dates is comparison of `toMs`. -/
structure JsDate where
  day : ℤ
  hour : ℕ := 0
  minute : ℕ := 0
  second : ℕ := 0
  ms : ℕ := 0
deriving DecidableEq, Repr

/-- Milliseconds since the epoch of the reference time zone. -/
def JsDate.toMs (d : JsDate) : ℤ :=
  d.day * 86400000 + (d.hour * 3600000 + d.minute * 60000 + d.second * 1000 + d.ms : ℕ)

/-- A date whose time-of-day fields are in range (a real `Date` always is). -/
def JsDate.Valid (d : JsDate) : Prop :=
  d.hour < 24 ∧ d.minute < 60 ∧ d.second < 60 ∧ d.ms < 1000

instance (d : JsDate) : Decidable d.Valid := by
  unfold JsDate.Valid; infer_instance

/-- Shift a date by a number of days, keeping the time of day
(JavaScript `d.setDate(d.getDate() + n)`). -/
def JsDate.addDays (d : JsDate) (n : ℤ) : JsDate := { d with day := d.day + n }

/-- The scheduling rule `calculateNextReviewDate(score)` of
`services/revisionEngine.js`: 5 days out for a score of at least 80, 3 days
for at least 50, otherwise 1 day, with the time of day set to 09:00:00.000
(`setHours(9, 0, 0, 0)`). -/
def calculateNextReviewDate (now : JsDate) (score : ℚ) : JsDate :=
  let daysToAdd : ℤ := if score ≥ 80 then 5 else if score ≥ 50 then 3 else 1
  { day := now.day + daysToAdd, hour := 9, minute := 0, second := 0, ms := 0 }

/-- C2: the next review is scheduled `now + 5` days when the score is at least
80, `now + 3` days when it is in `[50, 80)`, `now + 1` day when it is below
50, and in every case the resulting time of day is exactly 09:00:00.000. -/
theorem calculateNextReviewDate_tiers (now : JsDate) (score : ℚ) :
    (score ≥ 80 → (calculateNextReviewDate now score).day = now.day + 5) ∧
    (50 ≤ score ∧ score < 80 → (calculateNextReviewDate now score).day = now.day + 3) ∧
    (score < 50 → (calculateNextReviewDate now score).day = now.day + 1) ∧
    ((calculateNextReviewDate now score).hour = 9 ∧
      (calculateNextReviewDate now score).minute = 0 ∧
      (calculateNextReviewDate now score).second = 0 ∧
      (calculateNextReviewDate now score).ms = 0) := by
  unfold calculateNextReviewDate
  refine ⟨fun h => ?_, fun h => ?_, fun h => ?_, rfl, rfl, rfl, rfl⟩
  · rw [if_pos h]
  · rw [if_neg (by linarith [h.2]), if_pos h.1]
  · rw [if_neg (by linarith), if_neg (by linarith)]

/-- Witness for C2 at the three representative scores 95, 65 and 30. -/
theorem calculateNextReviewDate_tiers_witness :
    ((95:ℚ) ≥ 80 ∧ (calculateNextReviewDate ⟨100, 22, 15, 0, 0⟩ 95).day = 105) ∧
    ((50 ≤ (65:ℚ) ∧ (65:ℚ) < 80) ∧ (calculateNextReviewDate ⟨100, 22, 15, 0, 0⟩ 65).day = 103) ∧
    ((30:ℚ) < 50 ∧ (calculateNextReviewDate ⟨100, 22, 15, 0, 0⟩ 30).day = 101) ∧
    (calculateNextReviewDate ⟨100, 22, 15, 0, 0⟩ 30).hour = 9 :=
  ⟨⟨by norm_num, (calculateNextReviewDate_tiers ⟨100, 22, 15, 0, 0⟩ 95).1 (by norm_num)⟩,
   ⟨⟨by norm_num, by norm_num⟩,
     (calculateNextReviewDate_tiers ⟨100, 22, 15, 0, 0⟩ 65).2.1 ⟨by norm_num, by norm_num⟩⟩,
   ⟨by norm_num, (calculateNextReviewDate_tiers ⟨100, 22, 15, 0, 0⟩ 30).2.2.1 (by norm_num)⟩,
   (calculateNextReviewDate_tiers ⟨100, 22, 15, 0, 0⟩ 30).2.2.2.1⟩

/-- A category label. -/
structure Category where
  id : Nat
  name : String
deriving DecidableEq, Repr

/-- A saved bookmark with its review-schedule fields. -/
structure Bookmark where
  id : Nat
  title : String
  categoryId : Option Nat := none
  lastReviewedAt : Option JsDate := none
  nextReviewAt : Option JsDate := none
  createdAt : JsDate
deriving DecidableEq, Repr

/-- One completed quiz session against a bookmark. -/
structure QuizAttempt where
  id : Nat
  bookmarkId : Nat
  score : ℚ
  totalQuestions : Nat
  timeTaken : ℚ
  attemptedAt : JsDate
deriving DecidableEq, Repr

/-- One answer recorded with its parent attempt. -/
structure UserAnswer where
  attemptId : Nat
  questionId : Nat
  selectedAnswer : String
  isCorrect : Bool
deriving DecidableEq, Repr

/-- A snapshot of the content store (the five entity tables plus the id the
next created attempt receives). -/
structure Store where
  bookmarks : List Bookmark
  categories : List Category := []
  questions : List Question := []
  attempts : List QuizAttempt := []
  answers : List UserAnswer := []
  nextAttemptId : Nat := 0
deriving DecidableEq, Repr

/-- Lexicographic order on integer triples, used as a sort key. -/
def lex3LE (x y : ℤ × ℤ × ℤ) : Prop :=
  x.1 < y.1 ∨ (x.1 = y.1 ∧ (x.2.1 < y.2.1 ∨ (x.2.1 = y.2.1 ∧ x.2.2 ≤ y.2.2)))

instance : DecidableRel lex3LE := fun x y => by unfold lex3LE; infer_instance

/-- The `where` clause of `getDueBookmarks`: `nextReviewAt ≤ now`, or never
reviewed (`nextReviewAt` and `lastReviewedAt` both null). -/
def duePredicate (now : JsDate) (b : Bookmark) : Bool :=
  (match b.nextReviewAt with
   | some t => decide (t.toMs ≤ now.toMs)
   | none => false) ||
  (b.nextReviewAt.isNone && b.lastReviewedAt.isNone)

/-- Sort key of `orderBy: [{nextReviewAt: 'asc'}, {createdAt: 'asc'}]` as
PostgreSQL executes it: under `ASC`, `NULL` sorts after every non-`NULL`
value, so a null `nextReviewAt` goes into the later bucket `1`. -/
def dueSortKey (b : Bookmark) : ℤ × ℤ × ℤ :=
  match b.nextReviewAt with
  | some t => (0, t.toMs, b.createdAt.toMs)
  | none => (1, 0, b.createdAt.toMs)

/-- Comparison of bookmarks by `dueSortKey`. -/
def dueLE (a b : Bookmark) : Prop := lex3LE (dueSortKey a) (dueSortKey b)

instance : DecidableRel dueLE := fun a b => by unfold dueLE; infer_instance

instance : IsTotal Bookmark dueLE := ⟨fun a b => by unfold dueLE lex3LE; omega⟩

instance : IsTrans Bookmark dueLE := ⟨fun a b c => by unfold dueLE lex3LE; omega⟩

/-- The query `getDueBookmarks(limit)` of `services/revisionEngine.js`:
filter by `duePredicate`, order by (`nextReviewAt` asc, `createdAt` asc) and
take `limit` rows.  `insertionSort` models the stable ordered scan. -/
def getDueBookmarks (store : Store) (now : JsDate) (limit : ℕ) : List Bookmark :=
  ((store.bookmarks.filter (duePredicate now)).insertionSort dueLE).take limit

/-- The ordering the claim asserts instead: ascending `nextReviewAt` with
null values placed first (treated as earliest), ties by ascending creation
time.  Written from the claim's words for comparison with `dueSortKey`. -/
def claimDueSortKey (b : Bookmark) : ℤ × ℤ × ℤ :=
  match b.nextReviewAt with
  | some t => (1, t.toMs, b.createdAt.toMs)
  | none => (0, 0, b.createdAt.toMs)

/-- Comparison of bookmarks by `claimDueSortKey` (nulls first). -/
def claimDueLE (a b : Bookmark) : Prop := lex3LE (claimDueSortKey a) (claimDueSortKey b)

instance : DecidableRel claimDueLE := fun a b => by unfold claimDueLE; infer_instance

/-- A never-reviewed bookmark (both schedule fields null). -/
def exBookA : Bookmark := { id := 1, title := "a", createdAt := ⟨0, 8, 0, 0, 0⟩ }

/-- A bookmark whose review came due in the past. -/
def exBookB : Bookmark :=
  { id := 2, title := "b", lastReviewedAt := some ⟨2, 10, 0, 0, 0⟩,
    nextReviewAt := some ⟨5, 9, 0, 0, 0⟩, createdAt := ⟨1, 8, 0, 0, 0⟩ }

/-- Store with one never-reviewed and one overdue bookmark. -/
def exStore3 : Store := { bookmarks := [exBookA, exBookB] }

/-- The evaluation time used by the concrete C3 scenario. -/
def exNow3 : JsDate := ⟨10, 12, 0, 0, 0⟩

/-- C3 counterexample: both bookmarks qualify, but the returned order places
the null-`nextReviewAt` bookmark last, not first as the claim states, and
with `limit = 1` the never-reviewed bookmark is the one cut. -/
theorem getDueBookmarks_nulls_first_counterexample :
    getDueBookmarks exStore3 exNow3 2 = [exBookB, exBookA] ∧
    ¬ List.Sorted claimDueLE (getDueBookmarks exStore3 exNow3 2) ∧
    getDueBookmarks exStore3 exNow3 1 = [exBookB] ∧
    duePredicate exNow3 exBookA = true ∧ exBookA ∉ getDueBookmarks exStore3 exNow3 1 := by
  decide

/-- C3 (amended: nulls sort last): `dueBookmarks(limit)` returns only
bookmarks with `nextReviewAt ≤ now` or never reviewed, sorted ascending by
`nextReviewAt` with nulls placed last (PostgreSQL `ASC`), ties broken by
ascending creation time; at most `limit` rows, and every qualifying bookmark
is returned unless cut by the limit. -/
theorem getDueBookmarks_spec (store : Store) (now : JsDate) (limit : ℕ) :
    (∀ b ∈ getDueBookmarks store now limit, duePredicate now b = true) ∧
    List.Sorted dueLE (getDueBookmarks store now limit) ∧
    (getDueBookmarks store now limit).length =
      min limit (store.bookmarks.filter (duePredicate now)).length ∧
    ((store.bookmarks.filter (duePredicate now)).length ≤ limit →
      (getDueBookmarks store now limit).Perm (store.bookmarks.filter (duePredicate now))) ∧
    (∀ b ∈ store.bookmarks, duePredicate now b = true →
      (getDueBookmarks store now limit).length < limit →
      b ∈ getDueBookmarks store now limit) := by
  unfold getDueBookmarks
  set l := store.bookmarks.filter (duePredicate now) with hl
  refine ⟨?_, ?_, ?_, ?_, ?_⟩
  · intro b hb
    have hb1 : b ∈ l.insertionSort dueLE := List.take_subset _ _ hb
    have hb2 : b ∈ l := (List.mem_insertionSort dueLE).mp hb1
    exact (List.mem_filter.mp hb2).2
  · exact List.Pairwise.sublist (List.take_sublist _ _) (List.sorted_insertionSort dueLE l)
  · rw [List.length_take, List.length_insertionSort]
  · intro hle
    rw [List.take_of_length_le (by rw [List.length_insertionSort]; exact hle)]
    exact List.perm_insertionSort dueLE l
  · intro b hb hdue hlen
    rw [List.length_take, List.length_insertionSort] at hlen
    have hlt : l.length < limit := by omega
    rw [List.take_of_length_le (by rw [List.length_insertionSort]; omega)]
    exact (List.mem_insertionSort dueLE).mpr (List.mem_filter.mpr ⟨hb, hdue⟩)

/-- Attempts recorded for a bookmark, in store order. -/
def attemptsOf (store : Store) (b : Bookmark) : List QuizAttempt :=
  store.attempts.filter (fun a => a.bookmarkId == b.id)

/-- Most-recent-first comparison of attempts (`orderBy attemptedAt desc`). -/
def attemptDescLE (x y : QuizAttempt) : Prop := y.attemptedAt.toMs ≤ x.attemptedAt.toMs

instance : DecidableRel attemptDescLE := fun x y => by unfold attemptDescLE; infer_instance

instance : IsTotal QuizAttempt attemptDescLE := ⟨fun x y => by unfold attemptDescLE; omega⟩

instance : IsTrans QuizAttempt attemptDescLE := ⟨fun x y z => by unfold attemptDescLE; omega⟩

/-- The `quizAttempts` include of `getWeakestBookmarks`: the bookmark's
attempts ordered newest first, at most 3 of them. -/
def recentAttempts (store : Store) (b : Bookmark) : List QuizAttempt :=
  ((attemptsOf store b).insertionSort attemptDescLE).take 3

/-- A bookmark together with the recent-average fields `getWeakestBookmarks`
computes for it. -/
structure ScoredBookmark where
  bookmark : Bookmark
  avgRecentScore : ℚ
  attemptCount : ℕ
deriving DecidableEq, Repr

/-- Ascending comparison by recent average score. -/
def weakLE (x y : ScoredBookmark) : Prop := x.avgRecentScore ≤ y.avgRecentScore

instance : DecidableRel weakLE := fun x y => by unfold weakLE; infer_instance

instance : IsTotal ScoredBookmark weakLE := ⟨fun _ _ => le_total _ _⟩

instance : IsTrans ScoredBookmark weakLE := ⟨fun _ _ _ => le_trans⟩

/-- `getWeakestBookmarks(limit)` of `services/revisionEngine.js`: average the
scores of each bookmark's most recent (up to) 3 attempts, keep bookmarks with
at least one attempt, sort ascending by that average (JavaScript's stable
sort), return the first `limit`. -/
def getWeakestBookmarks (store : Store) (limit : ℕ) : List ScoredBookmark :=
  let scored := store.bookmarks.map (fun b =>
    let attempts := recentAttempts store b
    { bookmark := b,
      avgRecentScore :=
        if attempts.length > 0 then
          ((attempts.map (fun a => a.score)).sum) / (attempts.length : ℚ)
        else 0,
      attemptCount := attempts.length : ScoredBookmark })
  ((scored.filter (fun s => s.attemptCount > 0)).insertionSort weakLE).take limit

/-- C4: every returned entry has at least one attempt, its rank value is the
average score of its most recent 3 attempts (fewer if it has fewer), the list
is sorted ascending by that average and has length at most `limit`; a
bookmark with zero attempts never appears, although with both schedule
fields null it does qualify as due. -/
theorem getWeakestBookmarks_spec (store : Store) (limit : ℕ) :
    (∀ s ∈ getWeakestBookmarks store limit,
      0 < s.attemptCount ∧
      s.attemptCount = min 3 (attemptsOf store s.bookmark).length ∧
      s.avgRecentScore =
        ((recentAttempts store s.bookmark).map (fun a => a.score)).sum /
          ((recentAttempts store s.bookmark).length : ℚ)) ∧
    List.Sorted weakLE (getWeakestBookmarks store limit) ∧
    (getWeakestBookmarks store limit).length ≤ limit ∧
    (∀ s ∈ getWeakestBookmarks store limit, attemptsOf store s.bookmark ≠ []) ∧
    (∀ (now : JsDate) (b : Bookmark), b.nextReviewAt = none → b.lastReviewedAt = none →
      duePredicate now b = true) := by
  have hmem : ∀ s ∈ getWeakestBookmarks store limit,
      0 < s.attemptCount ∧
      s.attemptCount = min 3 (attemptsOf store s.bookmark).length ∧
      s.avgRecentScore =
        ((recentAttempts store s.bookmark).map (fun a => a.score)).sum /
          ((recentAttempts store s.bookmark).length : ℚ) := by
    intro s hs
    unfold getWeakestBookmarks at hs
    have h1 := List.take_subset _ _ hs
    have h2 := (List.mem_insertionSort weakLE).mp h1
    obtain ⟨h3, h4⟩ := List.mem_filter.mp h2
    obtain ⟨b, hb, heq⟩ := List.mem_map.mp h3
    subst heq
    simp only [decide_eq_true_eq] at h4
    have hcnt : (recentAttempts store b).length = min 3 (attemptsOf store b).length := by
      unfold recentAttempts
      rw [List.length_take, List.length_insertionSort]
    refine ⟨h4, hcnt, ?_⟩
    simp only [if_pos h4]
  refine ⟨hmem, ?_, ?_, ?_, ?_⟩
  · unfold getWeakestBookmarks
    exact List.Pairwise.sublist (List.take_sublist _ _)
      (List.sorted_insertionSort weakLE _)
  · unfold getWeakestBookmarks
    rw [List.length_take]
    exact min_le_left _ _
  · intro s hs hnil
    obtain ⟨hpos, hcnt, _⟩ := hmem s hs
    rw [hcnt, hnil] at hpos
    simp at hpos
  · intro now b h1 h2
    unfold duePredicate
    rw [h1, h2]
    simp

/-- The `questions` include of the `getDueBookmarks` query: `take: 5,
where: { type: 'mcq' }` — only multiple-choice questions are loaded with a
due bookmark. -/
def mcqIncludedQuestions (store : Store) (b : Bookmark) : List Question :=
  (store.questions.filter (fun q => q.bookmarkId == b.id && q.qtype == QType.mcq)).take 5

/-- The value `createDailyReviewSet` returns. -/
structure ReviewSet where
  bookmarks : List Bookmark
  questions : List Question
  totalDue : ℕ
deriving DecidableEq, Repr

/-- `createDailyReviewSet()` of `services/revisionEngine.js`.  Each combined
entry carries the relation data its originating query loaded: due entries
carry their included mcq questions, weak entries carry none (the
`getWeakestBookmarks` query includes no `questions` relation, so
`bookmark.questions` is `undefined` for them and the
`bookmark.questions.length > 0` test fails). -/
def createDailyReviewSet (store : Store) (now : JsDate) : ReviewSet :=
  let dueBookmarks := getDueBookmarks store now 5
  let weakBookmarks := getWeakestBookmarks store 3
  let dueIds := dueBookmarks.map (fun b => b.id)
  let combined : List (Bookmark × List Question) :=
    dueBookmarks.map (fun b => (b, mcqIncludedQuestions store b)) ++
    (weakBookmarks.filter (fun s => !(dueIds.contains s.bookmark.id))).map
      (fun s => (s.bookmark, ([] : List Question)))
  let questions := ((combined.take 5).filterMap (fun e => e.2.head?)).take 5
  { bookmarks := (combined.take 5).map (fun e => e.1),
    questions := questions,
    totalDue := combined.length }

/-- The representative-question choice the claim describes: the first
available question of the bookmark, with multiple-choice preferred.  Written
from the claim's words, for comparison with the code's selection. -/
def claimPreferredQuestion (store : Store) (b : Bookmark) : Option Question :=
  match (store.questions.filter (fun q => q.bookmarkId == b.id && q.qtype == QType.mcq)).head? with
  | some q => some q
  | none => (store.questions.filter (fun q => q.bookmarkId == b.id)).head?

/-- A short-answer question owned by the due bookmark of the C5 scenario. -/
def exShortQ : Question :=
  { id := 10, bookmarkId := 1, qtype := QType.short,
    questionText := "Explain", correctAnswer := "definition recall" }

/-- Store with one due (never-reviewed) bookmark whose only question is a
short-answer question. -/
def exStore5 : Store := { bookmarks := [exBookA], questions := [exShortQ] }

/-- C5 counterexample: the single selected bookmark has an eligible question
(`exShortQ`, the first available; no mcq exists so preference is moot), yet
the daily review set contains no question at all, because the code only ever
draws from the mcq-only `questions` include of the due query. -/
theorem createDailyReviewSet_question_pick_counterexample :
    (createDailyReviewSet exStore5 exNow3).bookmarks = [exBookA] ∧
    claimPreferredQuestion exStore5 exBookA = some exShortQ ∧
    (createDailyReviewSet exStore5 exNow3).questions = [] ∧
    (createDailyReviewSet exStore5 exNow3).questions ≠
      (createDailyReviewSet exStore5 exNow3).bookmarks.filterMap
        (claimPreferredQuestion exStore5) := by
  decide

/-- C5 (amended): the bookmark list is `dueBookmarks(5)` in order followed by
the not-already-present bookmarks of `weakestBookmarks(3)`, truncated to 5;
the question list is at most 5 long and consists of exactly the first
included mcq question of each due-selected bookmark that has one — a due
bookmark with no mcq question, and every bookmark added from the weak set,
contributes no question; `totalDue` counts all combined candidates, including
selected bookmarks that contributed no question. -/
theorem createDailyReviewSet_spec (store : Store) (now : JsDate) :
    (createDailyReviewSet store now).bookmarks =
      (getDueBookmarks store now 5 ++
        ((getWeakestBookmarks store 3).filter (fun s =>
          !(((getDueBookmarks store now 5).map (fun b => b.id)).contains s.bookmark.id))).map
          (fun s => s.bookmark)).take 5 ∧
    (createDailyReviewSet store now).bookmarks.length ≤ 5 ∧
    (createDailyReviewSet store now).questions.length ≤ 5 ∧
    (createDailyReviewSet store now).questions =
      (getDueBookmarks store now 5).filterMap
        (fun b => (mcqIncludedQuestions store b).head?) ∧
    (∀ q ∈ (createDailyReviewSet store now).questions,
      q.qtype = QType.mcq ∧ ∃ b ∈ getDueBookmarks store now 5, q.bookmarkId = b.id) ∧
    (createDailyReviewSet store now).totalDue =
      (getDueBookmarks store now 5).length +
        ((getWeakestBookmarks store 3).filter (fun s =>
          !(((getDueBookmarks store now 5).map (fun b => b.id)).contains s.bookmark.id))).length ∧
    (createDailyReviewSet store now).bookmarks.length ≤
      (createDailyReviewSet store now).totalDue := by
  unfold createDailyReviewSet
  set D := getDueBookmarks store now 5 with hD
  set WF := (getWeakestBookmarks store 3).filter (fun s =>
    !((D.map (fun b => b.id)).contains s.bookmark.id)) with hWF
  have hDlen : D.length ≤ 5 := by
    rw [hD]; unfold getDueBookmarks
    rw [List.length_take]; exact min_le_left _ _
  have hsplit :
      (D.map (fun b => (b, mcqIncludedQuestions store b)) ++
        WF.map (fun s => (s.bookmark, ([] : List Question)))).take 5 =
      D.map (fun b => (b, mcqIncludedQuestions store b)) ++
        (WF.map (fun s => (s.bookmark, ([] : List Question)))).take
          (5 - (D.map (fun b => (b, mcqIncludedQuestions store b))).length) := by
    rw [List.take_append_eq_append_take,
      List.take_of_length_le (by rw [List.length_map]; exact hDlen)]
  have hweaknil :
      ((WF.map (fun s => (s.bookmark, ([] : List Question)))).take
          (5 - (D.map (fun b => (b, mcqIncludedQuestions store b))).length)).filterMap
        (fun e => e.2.head?) = [] := by
    rw [List.filterMap_eq_nil_iff]
    intro e he
    have he1 := List.take_subset _ _ he
    obtain ⟨s, _, heq⟩ := List.mem_map.mp he1
    rw [← heq]
    rfl
  have hq :
      (((D.map (fun b => (b, mcqIncludedQuestions store b)) ++
          WF.map (fun s => (s.bookmark, ([] : List Question)))).take 5).filterMap
        (fun e => e.2.head?)) =
      D.filterMap (fun b => (mcqIncludedQuestions store b).head?) := by
    rw [hsplit, List.filterMap_append, hweaknil, List.append_nil, List.filterMap_map]
    rfl
  have hqlen : (D.filterMap (fun b => (mcqIncludedQuestions store b).head?)).length ≤ 5 :=
    le_trans (List.length_filterMap_le _ _) hDlen
  refine ⟨?_, ?_, ?_, ?_, ?_, ?_, ?_⟩
  · simp only
    rw [hsplit]
    simp only [List.map_append, List.map_map, List.map_take, List.length_map]
    have h1 : ((fun e : Bookmark × List Question => e.1) ∘
        fun b => (b, mcqIncludedQuestions store b)) = id := rfl
    have h2 : ((fun e : Bookmark × List Question => e.1) ∘
        fun s : ScoredBookmark => (s.bookmark, ([] : List Question))) =
        fun s : ScoredBookmark => s.bookmark := rfl
    rw [h1, h2, List.map_id, List.take_append_eq_append_take,
      List.take_of_length_le hDlen]
  · simp only
    rw [List.length_map, List.length_take]
    exact le_trans (min_le_left _ _) (le_refl 5)
  · simp only
    rw [List.length_take]
    exact min_le_left _ _
  · simp only
    rw [hq, List.take_of_length_le hqlen]
  · simp only
    rw [hq, List.take_of_length_le hqlen]
    intro q hqmem
    obtain ⟨b, hb, hpick⟩ := List.mem_filterMap.mp hqmem
    have hqm : q ∈ mcqIncludedQuestions store b := List.mem_of_mem_head? (hpick ▸ rfl)
    unfold mcqIncludedQuestions at hqm
    have hqm2 := List.take_subset _ _ hqm
    have := (List.mem_filter.mp hqm2).2
    simp only [Bool.and_eq_true, beq_iff_eq] at this
    exact ⟨this.2, b, hb, this.1⟩
  · simp only
    rw [List.length_append, List.length_map, List.length_map]
  · simp only
    rw [List.length_map, List.length_take, List.length_append,
      List.length_map, List.length_map]
    exact min_le_right _ _

/-- One `{questionId, selectedAnswer}` element of a submission. -/
structure AnswerInput where
  questionId : Nat
  selectedAnswer : String
deriving DecidableEq, Repr

/-- A `POST /submit` request body (`submitQuizSchema`): the zod schema checks
the shape (guaranteed here by typing) and `timeTaken ≥ 0`; it places no lower
bound on the length of `answers`. -/
structure Submission where
  bookmarkId : Nat
  answers : List AnswerInput
  timeTaken : ℚ
deriving DecidableEq, Repr

/-- Per-question result object pushed by the submit loop. -/
structure AnswerResult where
  questionId : Nat
  questionText : String
  selectedAnswer : String
  correctAnswer : String
  isCorrect : Bool
  explanation : Option String
deriving DecidableEq, Repr

/-- The JSON body the submit handler responds with. -/
structure SubmitResponse where
  attemptId : Nat
  score : ℚ
  correct : Nat
  total : Nat
  timeTaken : ℚ
  results : List AnswerResult
  weakQuestions : List AnswerResult
  nextReviewAt : JsDate
deriving DecidableEq, Repr

/-- The error responses the submit handler can produce before writing. -/
inductive SubmitError where
  | validation
  | notFound
deriving DecidableEq, Repr

/-- `prisma.bookmark.findUnique` on the snapshot. -/
def findBookmark (store : Store) (bid : Nat) : Option Bookmark :=
  store.bookmarks.find? (fun b => b.id == bid)

/-- `prisma.question.findUnique` on the snapshot. -/
def findQuestion (store : Store) (qid : Nat) : Option Question :=
  store.questions.find? (fun q => q.id == qid)

/-- JavaScript `Math.round(x * 100) / 100`, rounding half toward
positive infinity like `Math.round`. -/
def round2 (x : ℚ) : ℚ := ((round (x * 100) : ℤ) : ℚ) / 100

/-- `updateRevisionSchedule(bookmarkId, score)` of
`services/revisionEngine.js`: set `lastReviewedAt = now` and
`nextReviewAt = calculateNextReviewDate(score)` on the bookmark; returns the
updated snapshot and the new next-review date. -/
def updateRevisionSchedule (store : Store) (now : JsDate) (bookmarkId : Nat) (score : ℚ) :
    Store × JsDate :=
  let nextReviewAt := calculateNextReviewDate now score
  ({ store with
      bookmarks := store.bookmarks.map (fun b =>
        if b.id == bookmarkId then
          { b with lastReviewedAt := some now, nextReviewAt := some nextReviewAt }
        else b) },
    nextReviewAt)

/-- The `POST /submit` handler of `routes/quiz.js`: validate, look up the
bookmark, skip answers whose question no longer exists, grade the rest,
create the attempt and its answers, update the revision schedule, and build
the response. -/
def submitQuiz (store : Store) (now : JsDate) (sub : Submission) :
    Except SubmitError (Store × SubmitResponse) :=
  if sub.timeTaken < 0 then .error SubmitError.validation
  else
    match findBookmark store sub.bookmarkId with
    | none => .error SubmitError.notFound
    | some _ =>
      let results := sub.answers.filterMap (fun a =>
        (findQuestion store a.questionId).map (fun q =>
          { questionId := q.id, questionText := q.questionText,
            selectedAnswer := a.selectedAnswer, correctAnswer := q.correctAnswer,
            isCorrect := checkAnswer q a.selectedAnswer,
            explanation := q.explanation : AnswerResult }))
      let correctCount := (results.filter (fun r => r.isCorrect)).length
      let totalQuestions := results.length
      let score : ℚ :=
        if totalQuestions > 0 then ((correctCount : ℚ) / (totalQuestions : ℚ)) * 100 else 0
      let attempt : QuizAttempt :=
        { id := store.nextAttemptId, bookmarkId := sub.bookmarkId, score := score,
          totalQuestions := totalQuestions, timeTaken := sub.timeTaken, attemptedAt := now }
      let newAnswers := results.map (fun r =>
        { attemptId := attempt.id, questionId := r.questionId,
          selectedAnswer := r.selectedAnswer, isCorrect := r.isCorrect : UserAnswer })
      let store1 : Store :=
        { store with
            attempts := store.attempts ++ [attempt],
            answers := store.answers ++ newAnswers,
            nextAttemptId := store.nextAttemptId + 1 }
      let upd := updateRevisionSchedule store1 now sub.bookmarkId score
      .ok (upd.1,
        { attemptId := attempt.id, score := round2 score, correct := correctCount,
          total := totalQuestions, timeTaken := sub.timeTaken, results := results,
          weakQuestions := results.filter (fun r => !r.isCorrect),
          nextReviewAt := upd.2 })

/-- Number of submitted answers whose question id no longer resolves. -/
def skippedCount (store : Store) (sub : Submission) : ℕ :=
  (sub.answers.filter (fun a => (findQuestion store a.questionId).isNone)).length

/-- Store holding only the never-reviewed bookmark `exBookA`. -/
def exStore6 : Store := { bookmarks := [exBookA] }

/-- The evaluation time used by the concrete submit scenarios. -/
def exNow6 : JsDate := ⟨20, 14, 30, 0, 0⟩

/-- A submission whose answer set is empty. -/
def exSub6 : Submission := { bookmarkId := 1, answers := [], timeTaken := 10 }

/-- C6 counterexample: an empty answer set is not rejected — the submission
is accepted, a quiz attempt is recorded, and the bookmark's schedule fields
change. -/
theorem submit_empty_answers_counterexample :
    submitQuiz exStore6 exNow6 exSub6 ≠ Except.error SubmitError.validation ∧
    (submitQuiz exStore6 exNow6 exSub6).toOption.map (fun p => p.1.attempts.length) =
      some 1 ∧
    (submitQuiz exStore6 exNow6 exSub6).toOption.map
        (fun p => p.1.bookmarks.map (fun b => b.nextReviewAt)) ≠
      some (exStore6.bookmarks.map (fun b => b.nextReviewAt)) := by
  have hok : (submitQuiz exStore6 exNow6 exSub6).toOption.map
      (fun p => p.1.attempts.length) = some 1 := by decide
  refine ⟨?_, hok, by decide⟩
  intro h
  rw [h] at hok
  simp [Except.toOption] at hok

/-- C6 (amended): a submission with an empty answer set passes validation and
is processed — a `QuizAttempt` with score 0 and `totalQuestions` 0 is
created, no `UserAnswer` rows are created, and the bookmark's
`lastReviewedAt`/`nextReviewAt` are set (score 0 < 50, so the next review is
the next day at 09:00). -/
theorem submitQuiz_empty_answers (store : Store) (now : JsDate) (sub : Submission)
    (hempty : sub.answers = []) (ht : ¬ sub.timeTaken < 0)
    (hb : (findBookmark store sub.bookmarkId).isSome = true) :
    ∃ st resp, submitQuiz store now sub = Except.ok (st, resp) ∧
      resp.score = 0 ∧ resp.total = 0 ∧ resp.correct = 0 ∧
      st.attempts = store.attempts ++
        [{ id := store.nextAttemptId, bookmarkId := sub.bookmarkId, score := 0,
           totalQuestions := 0, timeTaken := sub.timeTaken, attemptedAt := now }] ∧
      st.answers = store.answers ∧
      st.bookmarks = store.bookmarks.map (fun b =>
        if b.id == sub.bookmarkId then
          { b with lastReviewedAt := some now, nextReviewAt := some (JsDate.mk (now.day + 1) 9 0 0 0) }
        else b) := by
  obtain ⟨b, heq⟩ := Option.isSome_iff_exists.mp hb
  have hnr : calculateNextReviewDate now 0 = JsDate.mk (now.day + 1) 9 0 0 0 := by
    unfold calculateNextReviewDate
    norm_num
  simp only [submitQuiz, hempty, heq, if_neg ht, List.filterMap_nil, List.filter_nil,
    List.length_nil, List.map_nil, gt_iff_lt, lt_self_iff_false, if_false,
    updateRevisionSchedule, hnr, List.append_nil]
  refine ⟨_, _, rfl, ?_, rfl, rfl, rfl, rfl, rfl⟩
  simp [round2]

/-- Witness for C6 at the concrete empty submission. -/
theorem submitQuiz_empty_answers_witness :
    (exSub6.answers = [] ∧ ¬ exSub6.timeTaken < 0 ∧
      (findBookmark exStore6 exSub6.bookmarkId).isSome = true) ∧
    (∃ st resp, submitQuiz exStore6 exNow6 exSub6 = Except.ok (st, resp) ∧
      resp.score = 0 ∧ resp.total = 0 ∧ resp.correct = 0 ∧
      st.attempts = exStore6.attempts ++
        [{ id := exStore6.nextAttemptId, bookmarkId := exSub6.bookmarkId, score := 0,
           totalQuestions := 0, timeTaken := exSub6.timeTaken, attemptedAt := exNow6 }] ∧
      st.answers = exStore6.answers ∧
      st.bookmarks = exStore6.bookmarks.map (fun b =>
        if b.id == exSub6.bookmarkId then
          { b with lastReviewedAt := some exNow6, nextReviewAt := some (JsDate.mk (exNow6.day + 1) 9 0 0 0) }
        else b)) :=
  ⟨⟨rfl, by decide, by decide⟩,
    submitQuiz_empty_answers exStore6 exNow6 exSub6 rfl (by decide) (by decide)⟩

/-- Counting only the answers whose question resolves: the scored results are
exactly as many as the resolvable answers. -/
theorem length_filterMap_option_map {α β γ : Type} (h : α → Option β) (g : α → β → γ)
    (l : List α) :
    (l.filterMap (fun a => (h a).map (g a))).length =
      (l.filter (fun a => (h a).isSome)).length := by
  induction l with
  | nil => rfl
  | cons a l ih =>
    cases hh : h a <;>
      simp [List.filterMap_cons, List.filter_cons, hh, ih]

/-- Resolvable and skipped answers partition a submission. -/
theorem filter_isSome_add_isNone_length {α β : Type} (h : α → Option β) (l : List α) :
    (l.filter (fun a => (h a).isSome)).length +
      (l.filter (fun a => (h a).isNone)).length = l.length := by
  induction l with
  | nil => rfl
  | cons a l ih =>
    cases hh : h a <;> simp [List.filter_cons, hh] <;> omega

/-- A multiple-choice question owned by the bookmark of the C7 scenario. -/
def exMcqQ : Question :=
  { id := 20, bookmarkId := 1, qtype := QType.mcq,
    questionText := "Pick", correctAnswer := "a" }

/-- Store with one bookmark and one existing question. -/
def exStore7 : Store := { bookmarks := [exBookA], questions := [exMcqQ] }

/-- Submission referencing one existing and one vanished question. -/
def exSubA7 : Submission :=
  { bookmarkId := 1, answers := [⟨20, "a"⟩, ⟨99, "x"⟩], timeTaken := 5 }

/-- Submission referencing one existing and two vanished questions. -/
def exSubB7 : Submission :=
  { bookmarkId := 1, answers := [⟨20, "a"⟩, ⟨99, "x"⟩, ⟨98, "y"⟩], timeTaken := 5 }

/-- C7 counterexample: two submissions with different numbers of skipped
answers (1 and 2) produce byte-for-byte identical responses, so the response
cannot be reporting the count of skipped answers. -/
theorem submit_skipped_count_not_reported_counterexample :
    (submitQuiz exStore7 exNow6 exSubA7).toOption.map (fun p => p.2) =
      (submitQuiz exStore7 exNow6 exSubB7).toOption.map (fun p => p.2) ∧
    skippedCount exStore7 exSubA7 = 1 ∧ skippedCount exStore7 exSubB7 = 2 :=
  ⟨rfl, by decide, by decide⟩

/-- C7 (amended): answers whose question id no longer resolves are skipped;
the submission still succeeds, the remaining answers are scored with
`score = 100 · correctCount / totalQuestions` over the non-skipped answers
only, and the response's `total` field equals the number of non-skipped
answers — the skipped count itself is not part of the response (it is only
inferable by comparing the submitted answer count against `total`). -/
theorem submitQuiz_skips_unknown_questions (store : Store) (now : JsDate) (sub : Submission)
    (ht : ¬ sub.timeTaken < 0) (hb : (findBookmark store sub.bookmarkId).isSome = true) :
    ∃ st resp, submitQuiz store now sub = Except.ok (st, resp) ∧
      resp.total = (sub.answers.filter (fun a => (findQuestion store a.questionId).isSome)).length ∧
      resp.total + skippedCount store sub = sub.answers.length ∧
      resp.results.length = resp.total ∧
      (0 < resp.total → resp.score = round2 ((100 * (resp.correct : ℚ)) / (resp.total : ℚ))) ∧
      (resp.total = 0 → resp.score = 0) ∧
      st.attempts.length = store.attempts.length + 1 := by
  obtain ⟨b, heq⟩ := Option.isSome_iff_exists.mp hb
  simp only [submitQuiz, heq, if_neg ht, updateRevisionSchedule]
  refine ⟨_, _, rfl, ?_, ?_, ?_, ?_, ?_, ?_⟩
  · exact length_filterMap_option_map _ _ _
  · rw [length_filterMap_option_map]
    exact filter_isSome_add_isNone_length _ _
  · rfl
  · intro hpos
    have hne : (sub.answers.filterMap (fun a =>
        (findQuestion store a.questionId).map (fun q =>
          { questionId := q.id, questionText := q.questionText,
            selectedAnswer := a.selectedAnswer, correctAnswer := q.correctAnswer,
            isCorrect := checkAnswer q a.selectedAnswer,
            explanation := q.explanation : AnswerResult }))).length > 0 := hpos
    simp only [if_pos hne]
    congr 1
    ring
  · intro hz
    have hz' : ¬ ((sub.answers.filterMap (fun a =>
        (findQuestion store a.questionId).map (fun q =>
          { questionId := q.id, questionText := q.questionText,
            selectedAnswer := a.selectedAnswer, correctAnswer := q.correctAnswer,
            isCorrect := checkAnswer q a.selectedAnswer,
            explanation := q.explanation : AnswerResult }))).length > 0) := by
      have hz2 : (sub.answers.filterMap (fun a =>
          (findQuestion store a.questionId).map (fun q =>
            { questionId := q.id, questionText := q.questionText,
              selectedAnswer := a.selectedAnswer, correctAnswer := q.correctAnswer,
              isCorrect := checkAnswer q a.selectedAnswer,
              explanation := q.explanation : AnswerResult }))).length = 0 := hz
      omega
    simp only [if_neg hz']
    simp [round2]
  · show (store.attempts ++ [_]).length = store.attempts.length + 1
    rw [List.length_append]
    rfl

/-- Witness for C7 at the concrete submission with one vanished question. -/
theorem submitQuiz_skips_unknown_questions_witness :
    (¬ exSubA7.timeTaken < 0 ∧ (findBookmark exStore7 exSubA7.bookmarkId).isSome = true) ∧
    (∃ st resp, submitQuiz exStore7 exNow6 exSubA7 = Except.ok (st, resp) ∧
      resp.total =
        (exSubA7.answers.filter (fun a => (findQuestion exStore7 a.questionId).isSome)).length ∧
      resp.total + skippedCount exStore7 exSubA7 = exSubA7.answers.length ∧
      resp.results.length = resp.total ∧
      (0 < resp.total → resp.score = round2 ((100 * (resp.correct : ℚ)) / (resp.total : ℚ))) ∧
      (resp.total = 0 → resp.score = 0) ∧
      st.attempts.length = exStore7.attempts.length + 1) :=
  ⟨⟨by decide, by decide⟩,
    submitQuiz_skips_unknown_questions exStore7 exNow6 exSubA7 (by decide) (by decide)⟩

/-- Time-of-day milliseconds of a date. -/
def JsDate.timeMs (d : JsDate) : ℕ :=
  d.hour * 3600000 + d.minute * 60000 + d.second * 1000 + d.ms

theorem JsDate.toMs_eq (d : JsDate) : d.toMs = d.day * 86400000 + (d.timeMs : ℤ) := rfl

theorem JsDate.timeMs_lt_of_valid {d : JsDate} (h : d.Valid) : d.timeMs < 86400000 := by
  obtain ⟨h1, h2, h3, h4⟩ := h
  unfold JsDate.timeMs
  omega

/-- One day of a trend series: its calendar day, its average score (absent
when the day has no attempts) and its attempt count. -/
structure TrendEntry where
  date : ℤ
  avgScore : Option ℚ
  attempts : ℕ
deriving DecidableEq, Repr

/-- `getPerformanceTrend(days)` of the analytics service: query the attempts
of the last `days` days (`attemptedAt ≥ now - days`, the cutoff keeping the
time of day), bucket them by calendar day for the `days` buckets
`now - (days-1) … now`, and emit one entry per bucket, oldest first, whose
average is rounded to two decimals (`Math.round(avg*100)/100`) or null when
the bucket is empty. -/
def getPerformanceTrend (store : Store) (now : JsDate) (days : ℕ) : List TrendEntry :=
  let startDate : JsDate := { now with day := now.day - days }
  let windowAttempts := store.attempts.filter (fun a => startDate.toMs ≤ a.attemptedAt.toMs)
  (List.range days).map (fun (i : ℕ) =>
    let d : ℤ := now.day - ((days : ℤ) - 1) + (i : ℤ)
    let dayScores := (windowAttempts.filter (fun a => a.attemptedAt.day == d)).map
      (fun a => a.score)
    { date := d,
      avgScore :=
        if dayScores.length > 0 then
          some (round2 (dayScores.sum / (dayScores.length : ℚ)))
        else none,
      attempts := dayScores.length })

/-- A bookmark's attempts newest first (the `orderBy attemptedAt desc`
include of `getCategoryAnalytics`). -/
def attemptsDescOf (store : Store) (b : Bookmark) : List QuizAttempt :=
  (attemptsOf store b).insertionSort attemptDescLE

/-- The 30-day `retentionTrend` series of `getCategoryAnalytics(categoryId)`:
for each of the last 30 calendar days (oldest first), the attempts of the
category's bookmarks falling inside `[midnight, next midnight)` of that day,
averaged exactly (no rounding) or null when there are none. -/
def categoryRetentionTrend (store : Store) (now : JsDate) (categoryId : ℕ) : List TrendEntry :=
  let catBookmarks := store.bookmarks.filter (fun b => b.categoryId == some categoryId)
  let allAttempts := catBookmarks.flatMap (fun b => attemptsDescOf store b)
  (List.range 30).map (fun (j : ℕ) =>
    let date : JsDate := ⟨now.day - 29 + (j : ℤ), 0, 0, 0, 0⟩
    let nextDay : JsDate := ⟨date.day + 1, 0, 0, 0, 0⟩
    let dayAttempts := allAttempts.filter (fun a =>
      decide (date.toMs ≤ a.attemptedAt.toMs) && decide (a.attemptedAt.toMs < nextDay.toMs))
    { date := date.day,
      avgScore :=
        if dayAttempts.length > 0 then
          some ((dayAttempts.map (fun a => a.score)).sum / (dayAttempts.length : ℚ))
        else none,
      attempts := dayAttempts.length })

/-- Store with a single attempt whose score `100/3` is not representable in
two decimal places. -/
def exStore8 : Store :=
  { bookmarks := [exBookA],
    attempts := [{ id := 0, bookmarkId := 1, score := 100/3, totalQuestions := 3,
                   timeTaken := 60, attemptedAt := ⟨20, 10, 0, 0, 0⟩ }] }

/-- C8 counterexample: the day's single attempt scored `100/3 = 33.333…`, but
the trend entry reports the rounded `33.33`, which is not the average of that
day's attempt scores. -/
theorem performanceTrend_rounds_average_counterexample :
    (getPerformanceTrend exStore8 exNow6 1).map (fun e => e.avgScore) = [some (3333/100)] ∧
    ((exStore8.attempts.map (fun a => a.score)).sum / (exStore8.attempts.length : ℚ)) =
      100/3 ∧
    (3333 / 100 : ℚ) ≠ 100 / 3 := by
  have h1 : round ((100:ℚ)/3 * 100) = 3333 := by
    rw [round_eq, show (100:ℚ)/3 * 100 + 1/2 = 20003/6 by ring]
    rw [Int.floor_eq_iff]
    constructor <;> norm_num
  have hround : round2 ((100:ℚ)/3) = 3333/100 := by
    unfold round2
    rw [h1]
    norm_num
  refine ⟨?_, by norm_num [exStore8], by norm_num⟩
  simp only [getPerformanceTrend, exStore8, exNow6,
    show List.range 1 = [0] from rfl, List.map_cons, List.map_nil,
    List.filter_cons, List.filter_nil, JsDate.toMs]
  norm_num [hround]

/-- C8 (amended: the trend average is rounded to two decimals):
`performanceTrend(d)` returns exactly `d` entries, one per calendar day,
oldest first; an entry's average score is null (not 0) when the day has no
attempts and is the day's average rounded to two decimal places otherwise,
and its attempt count is the number of that day's attempts (0 if none); the
30-day category retention series likewise has a null average exactly for
days with no attempts (and is unrounded). -/
theorem trend_series_spec (store : Store) (now : JsDate) (days : ℕ) (cid : ℕ)
    (hval : now.Valid) :
    (getPerformanceTrend store now days).length = days ∧
    (∀ i (h : i < (getPerformanceTrend store now days).length),
      ((getPerformanceTrend store now days).get ⟨i, h⟩).date =
        now.day - ((days : ℤ) - 1) + i) ∧
    (∀ e ∈ getPerformanceTrend store now days,
      e.attempts = (store.attempts.filter (fun a => a.attemptedAt.day == e.date)).length ∧
      (store.attempts.filter (fun a => a.attemptedAt.day == e.date) = [] →
        e.avgScore = none) ∧
      (store.attempts.filter (fun a => a.attemptedAt.day == e.date) ≠ [] →
        e.avgScore = some (round2
          (((store.attempts.filter (fun a => a.attemptedAt.day == e.date)).map
              (fun a => a.score)).sum /
            ((store.attempts.filter (fun a => a.attemptedAt.day == e.date)).length : ℚ))))) ∧
    (categoryRetentionTrend store now cid).length = 30 ∧
    (∀ e ∈ categoryRetentionTrend store now cid,
      (e.attempts = 0 → e.avgScore = none) ∧ (e.avgScore = none → e.attempts = 0)) := by
  have hfilter : ∀ i : ℕ, i < days →
      (store.attempts.filter (fun a =>
        (JsDate.mk (now.day - days) now.hour now.minute now.second now.ms).toMs ≤
          a.attemptedAt.toMs)).filter
        (fun a => a.attemptedAt.day == now.day - ((days : ℤ) - 1) + i) =
      store.attempts.filter
        (fun a => a.attemptedAt.day == now.day - ((days : ℤ) - 1) + i) := by
    intro i hi
    rw [List.filter_filter]
    apply List.filter_congr
    intro a _
    cases hd : (a.attemptedAt.day == now.day - ((days : ℤ) - 1) + i) with
    | false => simp
    | true =>
      simp only [Bool.true_and]
      have hd2 : a.attemptedAt.day = now.day - ((days : ℤ) - 1) + i := by
        simpa using hd
      have htm : now.timeMs < 86400000 := JsDate.timeMs_lt_of_valid hval
      have h1 : (JsDate.mk (now.day - days) now.hour now.minute now.second now.ms).toMs =
          (now.day - days) * 86400000 + (now.timeMs : ℤ) := rfl
      have h2 : a.attemptedAt.toMs =
          a.attemptedAt.day * 86400000 + (a.attemptedAt.timeMs : ℤ) := rfl
      simp only [decide_eq_true_eq, h1, h2, hd2]
      have h3 : (0 : ℤ) ≤ (a.attemptedAt.timeMs : ℤ) := Int.natCast_nonneg _
      omega
  refine ⟨?_, ?_, ?_, ?_, ?_⟩
  · simp only [getPerformanceTrend]
    rw [List.length_map, List.length_range]
  · intro i h
    simp only [getPerformanceTrend] at h ⊢
    rw [List.get_eq_getElem, List.getElem_map, List.getElem_range]
  · intro e he
    simp only [getPerformanceTrend, List.mem_map, List.mem_range] at he
    obtain ⟨i, hi, rfl⟩ := he
    dsimp only
    rw [List.length_map, hfilter i hi]
    refine ⟨rfl, ?_, ?_⟩
    · intro hnil
      rw [hnil]
      simp
    · intro hne
      have hlen : 0 < (store.attempts.filter
          (fun a => a.attemptedAt.day == now.day - ((days : ℤ) - 1) + i)).length :=
        List.length_pos.mpr hne
      rw [if_pos hlen]
  · simp only [categoryRetentionTrend]
    rw [List.length_map, List.length_range]
  · intro e he
    simp only [categoryRetentionTrend, List.mem_map, List.mem_range] at he
    obtain ⟨j, hj, rfl⟩ := he
    dsimp only
    constructor
    · intro h0
      rw [h0]
      simp
    · intro hnone
      by_contra hne
      rw [if_pos (Nat.pos_of_ne_zero hne)] at hnone
      exact Option.some_ne_none _ hnone

/-- Witness for C8 at a concrete store, time, window and category. -/
theorem trend_series_spec_witness :
    exNow6.Valid ∧
    ((getPerformanceTrend exStore8 exNow6 2).length = 2 ∧
    (∀ i (h : i < (getPerformanceTrend exStore8 exNow6 2).length),
      ((getPerformanceTrend exStore8 exNow6 2).get ⟨i, h⟩).date =
        exNow6.day - ((2 : ℤ) - 1) + i) ∧
    (∀ e ∈ getPerformanceTrend exStore8 exNow6 2,
      e.attempts = (exStore8.attempts.filter (fun a => a.attemptedAt.day == e.date)).length ∧
      (exStore8.attempts.filter (fun a => a.attemptedAt.day == e.date) = [] →
        e.avgScore = none) ∧
      (exStore8.attempts.filter (fun a => a.attemptedAt.day == e.date) ≠ [] →
        e.avgScore = some (round2
          (((exStore8.attempts.filter (fun a => a.attemptedAt.day == e.date)).map
              (fun a => a.score)).sum /
            ((exStore8.attempts.filter (fun a => a.attemptedAt.day == e.date)).length : ℚ))))) ∧
    (categoryRetentionTrend exStore8 exNow6 1).length = 30 ∧
    (∀ e ∈ categoryRetentionTrend exStore8 exNow6 1,
      (e.attempts = 0 → e.avgScore = none) ∧ (e.avgScore = none → e.attempts = 0))) :=
  ⟨by decide, trend_series_spec exStore8 exNow6 2 1 (by decide)⟩

/-- Insight priorities, ordered `critical(0) < warning(1) < info(2) <
positive(3)`. -/
inductive Priority where
  | critical
  | warning
  | info
  | positive
deriving DecidableEq, Repr

/-- Numeric value used by the final priority sort. -/
def Priority.val : Priority → ℕ
  | Priority.critical => 0
  | Priority.warning => 1
  | Priority.info => 2
  | Priority.positive => 3

/-- The `type` tags of the insight records `generateInsights` pushes. -/
inductive InsightType where
  | improvement
  | decline
  | missedReviews
  | weakCategory
  | retentionDecay
  | questionTypeWeakness
  | consistency
  | streak
deriving DecidableEq, Repr

/-- An insight record (the human-readable `message` string is presentation
and is omitted; `category`/`questionType` carry the identifying fields the
messages embed). -/
structure Insight where
  itype : InsightType
  priority : Priority
  category : Option String := none
  questionType : Option QType := none
  metric : ℚ := 0
deriving DecidableEq, Repr

/-- Stable comparison by priority rank. -/
def priorityLE (x y : Insight) : Prop := x.priority.val ≤ y.priority.val

instance : DecidableRel priorityLE := fun x y => by unfold priorityLE; infer_instance

instance : IsTotal Insight priorityLE := ⟨fun _ _ => Nat.le_total _ _⟩

instance : IsTrans Insight priorityLE := ⟨fun _ _ _ => Nat.le_trans⟩

/-- All attempts, newest first (`orderBy: { attemptedAt: 'desc' }`). -/
def attemptsDesc (store : Store) : List QuizAttempt :=
  store.attempts.insertionSort attemptDescLE

/-- `prisma.category.findUnique` on the snapshot. -/
def findCategory (store : Store) (cid : Nat) : Option Category :=
  store.categories.find? (fun cat => cat.id == cid)

/-- `attempt.bookmark?.category?.name || 'Uncategorized'`: the grouping key of
the per-category statistics.  JavaScript `||` treats the empty string as
falsy, so an empty category name also maps to `Uncategorized`. -/
def categoryNameOfAttempt (store : Store) (a : QuizAttempt) : String :=
  match (findBookmark store a.bookmarkId).bind (fun b =>
      b.categoryId.bind (fun cid => (findCategory store cid).map (fun cat => cat.name))) with
  | some n => if n = "" then "Uncategorized" else n
  | none => "Uncategorized"

/-- Keys of a JavaScript object in insertion order: first occurrences. -/
def firstOccurrences (l : List String) : List String :=
  l.foldl (fun acc n => if n ∈ acc then acc else acc ++ [n]) []

/-- The keys of `categoryStats`, in insertion order. -/
def categoryNames (store : Store) : List String :=
  firstOccurrences ((attemptsDesc store).map (categoryNameOfAttempt store))

/-- `categoryStats[c].scores`: the scores pushed for key `c`, in the
newest-first iteration order of the grouping loop. -/
def categoryScores (store : Store) (c : String) : List ℚ :=
  ((attemptsDesc store).filter (fun a => categoryNameOfAttempt store a == c)).map
    (fun a => a.score)

/-- Rule 1 of `generateInsights`: weekly improvement (positive) when both
7-day windows have attempts and the average rose, weekly decline (warning)
when it fell by more than 5 points. -/
def weeklyInsights (store : Store) (now : JsDate) : List Insight :=
  let oneWeekAgo : JsDate := { now with day := now.day - 7 }
  let twoWeeksAgo : JsDate := { now with day := now.day - 14 }
  let thisWeek := (attemptsDesc store).filter
    (fun a => oneWeekAgo.toMs ≤ a.attemptedAt.toMs)
  let lastWeek := (attemptsDesc store).filter (fun a =>
    decide (twoWeeksAgo.toMs ≤ a.attemptedAt.toMs) &&
      decide (a.attemptedAt.toMs < oneWeekAgo.toMs))
  if thisWeek.length > 0 ∧ lastWeek.length > 0 then
    let thisAvg := (thisWeek.map (fun a => a.score)).sum / (thisWeek.length : ℚ)
    let lastAvg := (lastWeek.map (fun a => a.score)).sum / (lastWeek.length : ℚ)
    let improvement := thisAvg - lastAvg
    if improvement > 0 then
      [{ itype := InsightType.improvement, priority := Priority.positive,
         metric := improvement }]
    else if improvement < -5 then
      [{ itype := InsightType.decline, priority := Priority.warning,
         metric := improvement }]
    else []
  else []

/-- Rule 2: missed reviews — a bookmark whose `nextReviewAt` is past and was
not reviewed after that deadline. -/
def missedReviewInsights (store : Store) (now : JsDate) : List Insight :=
  let missed := store.bookmarks.filter (fun b =>
    match b.nextReviewAt with
    | none => false
    | some nr =>
      decide (nr.toMs < now.toMs) &&
        (match b.lastReviewedAt with
         | none => true
         | some lr => decide (lr.toMs < nr.toMs)))
  if missed.length > 0 then
    [{ itype := InsightType.missedReviews, priority := Priority.warning,
       metric := (missed.length : ℚ) }]
  else []

/-- Rule 3: weak category — a grouping key with at least 3 attempts averaging
strictly below 50 yields a critical insight. -/
def weakCategoryInsights (store : Store) : List Insight :=
  (categoryNames store).filterMap (fun c =>
    let scores := categoryScores store c
    if scores.length ≥ 3 then
      let avg := scores.sum / (scores.length : ℚ)
      if avg < 50 then
        some { itype := InsightType.weakCategory, priority := Priority.critical,
               category := some c, metric := avg }
      else none
    else none)

/-- Rule 4: retention decay — with at least 5 attempts, the newest-3 average
trailing the oldest-3 average by more than 15 points. -/
def retentionDecayInsights (store : Store) : List Insight :=
  (categoryNames store).filterMap (fun c =>
    let scores := categoryScores store c
    if scores.length ≥ 5 then
      let recent := scores.take 3
      let older := scores.drop (scores.length - 3)
      let recentAvg := recent.sum / (recent.length : ℚ)
      let olderAvg := older.sum / (older.length : ℚ)
      if olderAvg - recentAvg > 15 then
        let daysBetween : ℚ :=
          match (attemptsDesc store).head?, (attemptsDesc store).getLast? with
          | some f, some l =>
            ((⌈(((f.attemptedAt.toMs - l.attemptedAt.toMs : ℤ) : ℚ) / 86400000)⌉ : ℤ) : ℚ)
          | _, _ => 0
        some { itype := InsightType.retentionDecay, priority := Priority.warning,
               category := some c, metric := daysBetween }
      else none
    else none)

/-- The answers recorded under an attempt. -/
def answersOfAttempt (store : Store) (att : QuizAttempt) : List UserAnswer :=
  store.answers.filter (fun ua => ua.attemptId == att.id)

/-- `answer.question?.type || 'mcq'`: the type bucket of an answer. -/
def answerQType (store : Store) (ua : UserAnswer) : QType :=
  match findQuestion store ua.questionId with
  | some q => q.qtype
  | none => QType.mcq

/-- Rule 5: question-type weakness — a type with at least 10 answered
instances and a correct rate below 50%. -/
def questionTypeInsights (store : Store) : List Insight :=
  let typedAnswers := (attemptsDesc store).flatMap (fun att => answersOfAttempt store att)
  [QType.mcq, QType.short, QType.scenario, QType.flashcard].filterMap (fun t =>
    let typed := typedAnswers.filter (fun ua => answerQType store ua == t)
    let total := typed.length
    let correct := (typed.filter (fun ua => ua.isCorrect)).length
    if total ≥ 10 then
      let rate := ((correct : ℚ) / (total : ℚ)) * 100
      if rate < 50 then
        some { itype := InsightType.questionTypeWeakness, priority := Priority.info,
               questionType := some t, metric := rate }
      else none
    else none)

/-- Rule 6: consistency — at least 5 distinct active days in the last 7
(positive), or at most 2 given any attempt ever (warning). -/
def consistencyInsights (store : Store) (now : JsDate) : List Insight :=
  let oneWeekAgo : JsDate := { now with day := now.day - 7 }
  let thisWeek := (attemptsDesc store).filter
    (fun a => oneWeekAgo.toMs ≤ a.attemptedAt.toMs)
  let activeDays := ((thisWeek.map (fun a => a.attemptedAt.day)).dedup).length
  if activeDays ≥ 5 then
    [{ itype := InsightType.consistency, priority := Priority.positive,
       metric := (activeDays : ℚ) }]
  else if activeDays ≤ 2 ∧ (attemptsDesc store).length > 0 then
    [{ itype := InsightType.consistency, priority := Priority.warning,
       metric := (activeDays : ℚ) }]
  else []

/-- Rule 7: study streak — walking back 30 days from today, counting days
with an attempt; a gap stops the walk except on day 0. -/
def streakInsights (store : Store) (now : JsDate) : List Insight :=
  let hasDay : ℕ → Bool := fun i =>
    (attemptsDesc store).any (fun a => a.attemptedAt.day == now.day - (i : ℤ))
  let streak := ((List.range 30).foldl (fun (st : ℕ × Bool) i =>
      if st.2 then st
      else if hasDay i then (st.1 + 1, false)
      else if i > 0 then (st.1, true)
      else st) (0, false)).1
  if streak ≥ 3 then
    [{ itype := InsightType.streak, priority := Priority.positive,
       metric := (streak : ℚ) }]
  else []

/-- `generateInsights()` of the insight engine: run the seven rules in
order and sort the collected insights by priority rank (stable). -/
def generateInsights (store : Store) (now : JsDate) : List Insight :=
  (weeklyInsights store now ++ missedReviewInsights store now ++
    weakCategoryInsights store ++ retentionDecayInsights store ++
    questionTypeInsights store ++ consistencyInsights store now ++
    streakInsights store now).insertionSort priorityLE

theorem mem_firstOccurrences_iff (a : String) (l : List String) :
    a ∈ firstOccurrences l ↔ a ∈ l := by
  have key : ∀ (l acc : List String),
      a ∈ l.foldl (fun acc n => if n ∈ acc then acc else acc ++ [n]) acc ↔
        a ∈ acc ∨ a ∈ l := by
    intro l
    induction l with
    | nil => intro acc; simp
    | cons b l ih =>
      intro acc
      rw [List.foldl_cons, ih]
      by_cases hb : b ∈ acc
      · rw [if_pos hb]
        simp only [List.mem_cons]
        constructor
        · rintro (h | h)
          · exact Or.inl h
          · exact Or.inr (Or.inr h)
        · rintro (h | h | h)
          · exact Or.inl h
          · exact Or.inl (h ▸ hb)
          · exact Or.inr h
      · rw [if_neg hb]
        simp only [List.mem_append, List.mem_singleton, List.mem_cons]
        tauto
  rw [firstOccurrences, key]
  simp

theorem weeklyInsights_itype (store : Store) (now : JsDate) :
    ∀ i ∈ weeklyInsights store now,
      i.itype = InsightType.improvement ∨ i.itype = InsightType.decline := by
  intro i hi
  unfold weeklyInsights at hi
  dsimp only at hi
  split_ifs at hi <;> simp_all

theorem missedReviewInsights_itype (store : Store) (now : JsDate) :
    ∀ i ∈ missedReviewInsights store now, i.itype = InsightType.missedReviews := by
  intro i hi
  unfold missedReviewInsights at hi
  dsimp only at hi
  split_ifs at hi <;> simp_all

theorem weakCategoryInsights_itype (store : Store) :
    ∀ i ∈ weakCategoryInsights store,
      i.itype = InsightType.weakCategory ∧ i.priority = Priority.critical := by
  intro i hi
  unfold weakCategoryInsights at hi
  obtain ⟨c, _, heq⟩ := List.mem_filterMap.mp hi
  dsimp only at heq
  split_ifs at heq
  simp_all
  rw [← heq]
  exact ⟨rfl, rfl⟩

theorem retentionDecayInsights_itype (store : Store) :
    ∀ i ∈ retentionDecayInsights store, i.itype = InsightType.retentionDecay := by
  intro i hi
  unfold retentionDecayInsights at hi
  obtain ⟨c, _, heq⟩ := List.mem_filterMap.mp hi
  dsimp only at heq
  split_ifs at heq
  simp_all
  rw [← heq]

theorem questionTypeInsights_itype (store : Store) :
    ∀ i ∈ questionTypeInsights store, i.itype = InsightType.questionTypeWeakness := by
  intro i hi
  unfold questionTypeInsights at hi
  obtain ⟨t, _, heq⟩ := List.mem_filterMap.mp hi
  dsimp only at heq
  split_ifs at heq
  simp_all
  rw [← heq]

theorem consistencyInsights_itype (store : Store) (now : JsDate) :
    ∀ i ∈ consistencyInsights store now, i.itype = InsightType.consistency := by
  intro i hi
  unfold consistencyInsights at hi
  dsimp only at hi
  split_ifs at hi <;> simp_all

theorem streakInsights_itype (store : Store) (now : JsDate) :
    ∀ i ∈ streakInsights store now, i.itype = InsightType.streak := by
  intro i hi
  unfold streakInsights at hi
  dsimp only at hi
  split_ifs at hi <;> simp_all

theorem mem_weakCategoryInsights_iff (store : Store) (c : String) :
    (∃ i ∈ weakCategoryInsights store, i.category = some c) ↔
      (3 ≤ (categoryScores store c).length ∧
        (categoryScores store c).sum / ((categoryScores store c).length : ℚ) < 50) := by
  constructor
  · rintro ⟨i, hi, hcat⟩
    unfold weakCategoryInsights at hi
    obtain ⟨x, hx, heq⟩ := List.mem_filterMap.mp hi
    dsimp only at heq
    split_ifs at heq with h1 h2
    · injection heq with heq
      subst heq
      have hxc : x = c := by simpa using hcat
      subst hxc
      exact ⟨h1, h2⟩
  · rintro ⟨h3, h50⟩
    have hlen : 0 < (categoryScores store c).length := by omega
    refine ⟨Insight.mk InsightType.weakCategory Priority.critical (some c) none
        ((categoryScores store c).sum / ((categoryScores store c).length : ℚ)), ?_, rfl⟩
    unfold weakCategoryInsights
    apply List.mem_filterMap.mpr
    refine ⟨c, ?_, ?_⟩
    · unfold categoryNames
      apply (mem_firstOccurrences_iff _ _).mpr
      unfold categoryScores at hlen
      rw [List.length_map] at hlen
      obtain ⟨a, ha⟩ := List.exists_mem_of_length_pos hlen
      obtain ⟨ha1, ha2⟩ := List.mem_filter.mp ha
      exact List.mem_map.mpr ⟨a, ha1, by simpa using ha2⟩
    · dsimp only
      rw [if_pos h3, if_pos h50]

/-- C9: `generateInsights` emits a critical weak-category insight for key `c`
iff `c` has at least 3 attempts in the full history and their average score
is strictly below 50; with fewer than 3 attempts it never fires. -/
theorem generateInsights_weak_category_iff (store : Store) (now : JsDate) (c : String) :
    (∃ i ∈ generateInsights store now,
      i.itype = InsightType.weakCategory ∧ i.priority = Priority.critical ∧
        i.category = some c) ↔
      (3 ≤ (categoryScores store c).length ∧
        (categoryScores store c).sum / ((categoryScores store c).length : ℚ) < 50) := by
  rw [← mem_weakCategoryInsights_iff store c]
  constructor
  · rintro ⟨i, hi, hty, _, hcat⟩
    unfold generateInsights at hi
    rw [List.mem_insertionSort] at hi
    simp only [List.mem_append] at hi
    rcases hi with ((((((h | h) | h) | h) | h) | h) | h)
    · rcases weeklyInsights_itype store now i h with h2 | h2 <;> simp [h2] at hty
    · have h2 := missedReviewInsights_itype store now i h
      simp [h2] at hty
    · exact ⟨i, h, hcat⟩
    · have h2 := retentionDecayInsights_itype store i h
      simp [h2] at hty
    · have h2 := questionTypeInsights_itype store i h
      simp [h2] at hty
    · have h2 := consistencyInsights_itype store now i h
      simp [h2] at hty
    · have h2 := streakInsights_itype store now i h
      simp [h2] at hty
  · rintro ⟨i, hi, hcat⟩
    obtain ⟨hty, hpr⟩ := weakCategoryInsights_itype store i hi
    refine ⟨i, ?_, hty, hpr, hcat⟩
    unfold generateInsights
    rw [List.mem_insertionSort]
    simp only [List.mem_append]
    tauto
